import Mathlib

/-!
Shallow embedding of the material-processing core of the
FileTranslationBackend repository (src/app.py and src/llm_service.py).

Conventions of the embedding:
* Database rows are Lean structures; a table is a `List Material` and a
  commit of a whole mapped update is a pure function on that list.
* Serialized JSON columns that the handlers read or write as whole values
  are modelled at the parsed level (the store serializes them); columns
  whose content is never inspected are `Option String`.
* Timestamps are abstract `Nat` ticks passed in as `now`.
* External provider results (entity recognition, LLM text output) are
  inputs to the handler functions.
-/

/-- One entry of `llm_translation_result`: `{id, translation, original}`
as produced by `LLMTranslationService`. -/
structure LLMEntry where
  id : Nat
  translation : String
  original : String
deriving DecidableEq, Repr

/-- One OCR region as stored in `translation_text_info.regions`
(`{id, src, dst, ...}`); the geometry fields are irrelevant to the
handlers modelled here. -/
structure Region where
  id : Nat
  src : String
  dst : String
deriving DecidableEq, Repr

/-- A `translationGuidance` JSON object, as an association list
(dict keys to lists of guidance lines).  The empty list models the empty
dict `\x7b\x7d`, which is falsy in Python. -/
abbrev GuidanceDict := List (String × List String)

/-- The `entity_user_edits` payload written by `confirm_entities` and by
deep-mode auto-confirmation:
`\x7bentities, translationGuidance, confirmedAt\x7d`. -/
structure UserEdits where
  entities : List String
  translationGuidance : GuidanceDict
  confirmedAt : Nat
deriving DecidableEq, Repr

/-- Result dict returned by `EntityRecognitionService.recognize_entities`.
`error = none` models an absent `error` key; `translationGuidance = none`
models an absent key while `some []` models the empty dict. -/
structure EntityResult where
  success : Bool
  error : Option String
  recoverable : Bool
  entities : List String
  translationGuidance : Option GuidanceDict
deriving DecidableEq, Repr

/-- An image file on disk, as a rectangular grid of pixels. -/
abbrev Image := List (List Nat)

/-- The `materials` row (the columns touched by the handlers under
verification; see `class Material` in src/app.py). -/
structure Material where
  id : String
  type : String
  status : String
  confirmed : Bool
  selected_result : String
  selected_translation_type : Option String
  file_path : String
  translation_text_info : Option String
  translation_error : Option String
  llm_translation_result : Option (List LLMEntry)
  edited_image_path : Option String
  final_image_path : Option String
  has_edited_version : Bool
  edited_regions : Option (List String)
  pdf_session_id : Option String
  entity_recognition_enabled : Bool
  entity_recognition_mode : Option String
  entity_recognition_result : Option EntityResult
  entity_recognition_confirmed : Bool
  entity_recognition_triggered : Bool
  entity_user_edits : Option UserEdits
  entity_recognition_error : Option String
  processing_step : Option String
  processing_progress : Nat
  version : Nat
  client_id : String
  updated_at : Nat
deriving DecidableEq, Repr

/-- The keyword arguments accepted by `update_material_status`
(the database fields actually passed by its callers in src/app.py).
`none` means the keyword is absent. -/
structure Changes where
  processing_step : Option (Option String) := none
  processing_progress : Option Nat := none
  translation_text_info : Option (Option String) := none
  translation_error : Option (Option String) := none
  llm_translation_result : Option (Option (List LLMEntry)) := none
  translated_image_path : Option (Option String) := none
deriving DecidableEq, Repr

/-- Apply the keyword arguments of `update_material_status` to a row
(the `setattr` loop, src/app.py lines 727-732).
`translated_image_path` is not a column of the modelled row slice, so it
is accepted and dropped, like the model drops `emit_websocket`. -/
def applyChanges (m : Material) (ch : Changes) : Material :=
  { m with
    processing_step := ch.processing_step.getD m.processing_step,
    processing_progress := ch.processing_progress.getD m.processing_progress,
    translation_text_info :=
      ch.translation_text_info.getD m.translation_text_info,
    translation_error := ch.translation_error.getD m.translation_error,
    llm_translation_result :=
      ch.llm_translation_result.getD m.llm_translation_result }

/-- `update_material_status` (src/app.py lines 689-771), success path:
it records `old_version` from the row object in hand, sets the display
status and the keyword fields, then unconditionally writes
`version := old_version + 1` and `updated_at := now` and commits,
returning `True`.  No expected-version comparison is performed. -/
def update_material_status (material : Material) (status : String)
    (ch : Changes) (now : Nat) : Material :=
  let old_version := material.version
  let m := { material with status := status }
  let m := applyChanges m ch
  { m with version := old_version + 1, updated_at := now }

/-- A commit overwrites the stored row having the same primary key with
the session's row object (last write wins; there is no `WHERE version =`
clause anywhere in the repository). -/
def commitRow (db : List Material) (row : Material) : List Material :=
  db.map fun m => if m.id = row.id then row else m

/-- `update_material_status` as seen by the store: the caller's in-hand
row (possibly stale with respect to `db`) is updated and committed over
the stored row. -/
def update_material_status_commit (db : List Material) (caller : Material)
    (status : String) (ch : Changes) (now : Nat) : List Material :=
  commitRow db (update_material_status caller status ch now)

/-- `confirm_material` (src/app.py lines 5035-5100), success path.
PDF materials: every row sharing the `pdf_session_id` gets
`confirmed := true` and status `已确认` in one commit.  Otherwise only the
material itself is confirmed, and `selected_result` /
`selected_translation_type` are set only for image materials with a
requested type in `[api, latex]`.  `processing_step` is never touched.
Returns `none` when the material is not found (404). -/
def confirm_material (db : List Material) (material_id : String)
    (translation_type : Option String) (now : Nat) : Option (List Material) :=
  match db.find? (fun m => m.id = material_id) with
  | none => none
  | some material =>
    match material.pdf_session_id with
    | some sid =>
      some (db.map fun page =>
        if page.pdf_session_id = some sid then
          { page with confirmed := true, status := "已确认", updated_at := now }
        else page)
    | none =>
      some (db.map fun m =>
        if m.id = material_id then
          let m1 := { m with confirmed := true, status := "已确认" }
          let m2 := match translation_type with
            | some t =>
              if (t = "api" ∨ t = "latex") ∧ m1.type = "image" then
                { m1 with selected_translation_type := some t, selected_result := t }
              else m1
            | none => m1
          { m2 with updated_at := now }
        else m)

/-- `unconfirm_material` (src/app.py lines 5211-5272), success path.
PDF materials: every row of the session gets `confirmed := false` and
status `翻译完成`; otherwise only the material itself.  The handler never
reads `llm_translation_result` and never touches `processing_step`,
`edited_regions`, `final_image_path` or `has_edited_version`. -/
def unconfirm_material (db : List Material) (material_id : String)
    (now : Nat) : Option (List Material) :=
  match db.find? (fun m => m.id = material_id) with
  | none => none
  | some material =>
    match material.pdf_session_id with
    | some sid =>
      some (db.map fun page =>
        if page.pdf_session_id = some sid then
          { page with confirmed := false, status := "翻译完成", updated_at := now }
        else page)
    | none =>
      some (db.map fun m =>
        if m.id = material_id then
          { m with confirmed := false, status := "翻译完成", updated_at := now }
        else m)

/-- `save_material_regions` (src/app.py lines 5380-5441), success path:
stores the submitted regions payload, sets `has_edited_version := true`
and `selected_result := api`; no version logic, no step change. -/
def save_material_regions (material : Material) (regions : List String)
    (now : Nat) : Material :=
  { material with
    edited_regions := some regions,
    has_edited_version := true,
    selected_result := "api",
    updated_at := now }

/-- Clockwise 90-degree rotation, the meaning of PIL's
`img.rotate(-90, expand=True)` in `rotate_material`. -/
def rotateCW (img : Image) : Image :=
  (img.reverse).transpose

/-- `rotate_material` (src/app.py lines 6880-6963), success path: the
source file is overwritten with the rotated image; the translation
artifacts are cleared; status becomes `已上传` and `processing_step`
becomes NULL (`None`), progress 0.  No translation task is started.
Returns `none` for unsupported material types (400). -/
def rotate_material (material : Material) (img : Image) (now : Nat) :
    Option (Material × Image) :=
  if material.type = "image" ∨ material.type = "pdf" then
    some ({ material with
            translation_text_info := none,
            llm_translation_result := none,
            edited_image_path := none,
            final_image_path := none,
            has_edited_version := false,
            edited_regions := none,
            status := "已上传",
            processing_step := none,
            processing_progress := 0,
            updated_at := now },
          rotateCW img)
  else none

/-- HTTP-level outcome of the entity-recognition handlers: the status
code and the `recoverable` / `canContinue` flags of the JSON body. -/
structure ErResponse where
  code : Nat
  recoverable : Bool := false
  canContinue : Bool := false
deriving DecidableEq, Repr

/-- `start_entity_recognition` (src/app.py lines 5858-5969); the provider
result is an input.  On a recoverable failure the handler disables entity
recognition, drops the step back to `translated`, stores the provider's
error, and answers 503 with `recoverable: true`; it never touches
`entity_recognition_triggered`.  On a fatal failure the step becomes
`failed` (500). -/
def start_entity_recognition (material : Material)
    (entity_result : EntityResult) : Material × ErResponse :=
  if ¬ material.entity_recognition_enabled then
    (material, { code := 400 })
  else if material.translation_text_info = none then
    (material, { code := 400 })
  else
    let m1 := { material with
                processing_step := some "entity_recognizing",
                processing_progress := 0 }
    if entity_result.success then
      ({ m1 with
         entity_recognition_result := some entity_result,
         processing_step := some "entity_pending_confirm",
         processing_progress := 100,
         entity_recognition_error := none },
       { code := 200 })
    else
      let m2 := { m1 with entity_recognition_error := entity_result.error }
      if entity_result.recoverable then
        ({ m2 with
           entity_recognition_enabled := false,
           processing_step := some "translated" },
         { code := 503, recoverable := true, canContinue := true })
      else
        ({ m2 with processing_step := some "failed" }, { code := 500 })

/-- `entity_recognition_fast` (src/app.py lines 6219-6326); sets
`entity_recognition_triggered := true` and step `entity_recognizing`
before the provider call.  On failure it answers 500 (echoing the
provider's `recoverable` flag) and leaves the material in
`entity_recognizing`. -/
def entity_recognition_fast (material : Material)
    (entity_result : EntityResult) : Material × ErResponse :=
  if material.translation_text_info = none then
    (material, { code := 400 })
  else
    let m1 := { material with
                processing_step := some "entity_recognizing",
                entity_recognition_triggered := true }
    if entity_result.success then
      ({ m1 with
         entity_recognition_result := some entity_result,
         processing_step := some "entity_pending_confirm" },
       { code := 200 })
    else
      (m1, { code := 500, recoverable := entity_result.recoverable })

/-- `entity_recognition_deep` (src/app.py lines 6341-6496); on success it
auto-confirms (`entity_recognition_confirmed := true`, step
`entity_confirmed`) and stores `entity_user_edits` only when the
provider result has a truthy `translationGuidance` (a present, non-empty
dict), then starts the LLM task (the returned Bool). -/
def entity_recognition_deep (material : Material)
    (entity_result : EntityResult) (now : Nat) :
    Material × ErResponse × Bool :=
  if material.translation_text_info = none then
    (material, { code := 400 }, false)
  else
    let m1 := { material with
                processing_step := some "entity_recognizing",
                entity_recognition_triggered := true }
    if entity_result.success then
      let m2 := { m1 with
                  entity_recognition_result := some entity_result,
                  entity_recognition_confirmed := true,
                  processing_step := some "entity_confirmed" }
      let m3 := match entity_result.translationGuidance with
        | some g =>
          if g ≠ [] then
            let ue : UserEdits :=
              { entities := entity_result.entities,
                translationGuidance := g,
                confirmedAt := now }
            { m2 with entity_user_edits := some ue }
          else m2
        | none => m2
      (m3, { code := 200 }, true)
    else
      (m1, { code := 500, recoverable := entity_result.recoverable }, false)

/-- Result of `confirm_entities`: the committed table, the HTTP status
and whether the auto-chained LLM thread was started. -/
structure CeResult where
  db : List Material
  code : Nat
  llmStarted : Bool
deriving DecidableEq, Repr

/-- `confirm_entities` (src/app.py lines 6048-6204).  Guard: the material
must be in `entity_pending_confirm`, otherwise 400 with nothing changed.
On success the edits and the confirmed flag are written to the material
and to EVERY sibling sharing its `pdf_session_id` (regardless of the
sibling's step); only siblings still in `entity_pending_confirm` also
transition to `entity_confirmed`.  All rows go in one commit, then the
LLM thread is started. -/
def confirm_entities (db : List Material) (material_id : String)
    (entities : List String) (translation_guidance : GuidanceDict)
    (now : Nat) : Option CeResult :=
  match db.find? (fun m => m.id = material_id) with
  | none => none
  | some material =>
    if material.processing_step ≠ some "entity_pending_confirm" then
      some { db := db, code := 400, llmStarted := false }
    else
      let user_edits : UserEdits :=
        { entities := entities,
          translationGuidance := translation_guidance,
          confirmedAt := now }
      let db2 := db.map fun mat =>
        if mat.id = material_id then
          { mat with
            entity_user_edits := some user_edits,
            entity_recognition_confirmed := true,
            processing_step := some "entity_confirmed" }
        else
          match material.pdf_session_id with
          | some sid =>
            if mat.pdf_session_id = some sid then
              let mat1 := { mat with
                            entity_user_edits := some user_edits,
                            entity_recognition_confirmed := true }
              if mat1.processing_step = some "entity_pending_confirm" then
                { mat1 with processing_step := some "entity_confirmed" }
              else mat1
            else mat
          | none => mat
      some { db := db2, code := 200, llmStarted := true }

/-- Outcome of the early part of `llm_translate_material`:
409 translation-lock conflict, cache hit returning the stored result, or
fall-through to the translation path (not reached on the first two). -/
inductive LtOutcome where
  | conflict
  | cached (translations : List LLMEntry)
  | proceed
deriving DecidableEq, Repr

/-- `check_translation_lock` (src/app.py lines 773-790): the material is
locked iff its display status is `翻译中`. -/
def check_translation_lock (material : Material) : Bool :=
  material.status = "翻译中"

/-- `llm_translate_material` (src/app.py lines 6584-6624), up to the
point where translation work would start.  The lock check runs FIRST;
only then does a non-null `llm_translation_result` short-circuit with the
stored translations.  The returned material is the row at that point:
neither early return mutates it. -/
def llm_translate_material (material : Material) : Material × LtOutcome :=
  if check_translation_lock material then
    (material, LtOutcome.conflict)
  else
    match material.llm_translation_result with
    | some l => (material, LtOutcome.cached l)
    | none => (material, LtOutcome.proceed)

/-- Python whitespace test for `str.strip()` and the regex class
`\\s` (ASCII subset). -/
def isPySpace (c : Char) : Bool :=
  c = ' ' ∨ c = '\t' ∨ c = '\n' ∨ c = '\r' ∨ c = '\x0b' ∨ c = '\x0c'

/-- `str.strip()` on a character list: drop whitespace at both ends. -/
def pyStripList (cs : List Char) : List Char :=
  ((cs.dropWhile isPySpace).reverse.dropWhile isPySpace).reverse

/-- `str.strip()`. -/
def pyStrip (s : String) : String :=
  String.mk (pyStripList s.data)

/-- `str.split('\n')` on a character list. -/
def splitOnNl : List Char → List (List Char)
  | [] => [[]]
  | c :: rest =>
    let r := splitOnNl rest
    if c = '\n' then [] :: r
    else
      match r with
      | [] => [[c]]
      | h :: t => (c :: h) :: t

/-- `str.split('\n')`. -/
def splitLines (s : String) : List String :=
  (splitOnNl s.data).map String.mk

/-- `str.lower()` (ASCII range; the texts compared by the swap check
are translations, lower-cased byte-wise by Python). -/
def asciiLower (c : Char) : Char :=
  if 'A' ≤ c ∧ c ≤ 'Z' then Char.ofNat (c.toNat + 32) else c

/-- `str.lower()` on strings. -/
def pyLower (s : String) : String :=
  String.mk (s.data.map asciiLower)

/-- Numeric value of a digit string (`int(match.group(1))`). -/
def digitsVal (ds : List Char) : Nat :=
  ds.foldl (fun n c => 10 * n + (c.toNat - '0'.toNat)) 0

/-- The regex `\[(\d+)\]\s*(.+)` of `_parse_llm_output`, applied with
`re.match` to a line that has already been stripped; the captured
translation is then stripped again (`match.group(2).strip()`).
Returns the id and the translation text, or `none` when the line does
not match. -/
def parseLine (line : String) : Option (Nat × String) :=
  match line.data with
  | '[' :: rest =>
    let ds := rest.takeWhile (fun c => c.isDigit)
    let rest1 := rest.dropWhile (fun c => c.isDigit)
    if ds.isEmpty then none
    else
      match rest1 with
      | ']' :: rest2 =>
        let rest3 := rest2.dropWhile isPySpace
        if rest3.isEmpty then none
        else some (digitsVal ds, String.mk (pyStripList rest3))
      | _ => none
  | _ => none

/-- Stable ascending insertion by `id` (inserting after equal keys),
the arrangement produced by Python's stable `sort(key=lambda t: t.id)`. -/
def insertById (e : LLMEntry) : List LLMEntry → List LLMEntry
  | [] => [e]
  | x :: xs => if e.id < x.id then e :: x :: xs else x :: insertById e xs

/-- `translations.sort(key=lambda t: t.id)`: the stable ascending sort
of the parsed entries. -/
def sortById (l : List LLMEntry) : List LLMEntry :=
  l.foldl (fun acc e => insertById e acc) []

/-- `LLMTranslationService._parse_llm_output` (src/llm_service.py lines
228-259): split the model output into lines, strip each, parse the
`[id] translation` lines, attach the OCR `dst` of the region with that
id as `original` (empty string when no such region), and sort by id. -/
def parse_llm_output (llm_output : String) (original_regions : List Region) :
    List LLMEntry :=
  let lines := splitLines (pyStrip llm_output)
  let translations := lines.filterMap fun l =>
    let line := pyStrip l
    if line = "" then none
    else
      match parseLine line with
      | some (region_id, translation) =>
        let original :=
          ((original_regions.find? (fun r => r.id = region_id)).map
            (fun r => r.dst)).getD ""
        some { id := region_id, translation := translation,
               original := original }
      | none => none
  sortById translations

/-- The key normalization of the swap-error check:
`dst.strip().lower()`. -/
def baiduKey (s : String) : String :=
  pyLower (pyStrip s)

/-- The `baidu_to_id` dict of `_optimize_batch`: built over regions with
a truthy `dst`, later regions overwriting earlier ones with the same
normalized key (hence the reversed search). -/
def baidu_to_id (regions : List Region) (key : String) : Option Nat :=
  (((regions.filter (fun r => r.dst ≠ "")).reverse).find?
    (fun r => baiduKey r.dst = key)).map (fun r => r.id)

/-- The swap-error correction loop of `_optimize_batch` (src/llm_service.py
lines 144-162), for one entry: when the entry's translation (stripped,
lowered) equals the normalized Baidu `dst` recorded for a DIFFERENT
region id, and the entry's own region exists with a truthy `dst`, the
translation is replaced by the own region's `dst`. -/
def swapFix (regions : List Region) (t : LLMEntry) : LLMEntry :=
  let llm_trans := baiduKey t.translation
  match baidu_to_id regions llm_trans with
  | some actual_id =>
    if actual_id ≠ t.id then
      match regions.find? (fun r => r.id = t.id) with
      | some correct_region =>
        if correct_region.dst ≠ "" then
          { t with translation := correct_region.dst }
        else t
      | none => t
    else t
  | none => t

/-- `LLMTranslationService._optimize_batch` (src/llm_service.py lines
87-163) after the provider call, with the raw model output as input:
parse and sort the output, append a Baidu-`dst` fallback entry for every
region whose id is missing from the output (appended AFTER the sorted
parsed entries), then run the swap-error correction over the whole
list.  Returns `[]` when no region has a non-empty `src`. -/
def optimize_batch (regions : List Region) (llm_output : String) :
    List LLMEntry :=
  let source_texts := regions.filter (fun r => r.src ≠ "")
  if source_texts.isEmpty then []
  else
    let translations := parse_llm_output llm_output regions
    let input_ids := (regions.filter (fun r => r.src ≠ "")).map (fun r => r.id)
    let output_ids := translations.map (fun t => t.id)
    let missing_ids := input_ids.filter (fun i => ¬ output_ids.contains i)
    let fallbacks :=
      (regions.filter (fun r => missing_ids.contains r.id)).map fun r =>
        ({ id := r.id, translation := r.dst, original := r.dst } : LLMEntry)
    (translations ++ fallbacks).map (swapFix regions)

/-! ### Helper lemmas -/

theorem forall2_map_self {α : Type} {R : α → α → Prop} (db : List α)
    (f : α → α) (h : ∀ m ∈ db, R m (f m)) :
    List.Forall₂ R db (db.map f) := by
  induction db with
  | nil => exact List.Forall₂.nil
  | cons a l ih =>
    exact List.Forall₂.cons (h a (by simp))
      (ih (fun m hm => h m (by simp [hm])))

theorem map_version_congr (db : List Material) (f : Material → Material)
    (h : ∀ m, (f m).version = m.version) :
    (db.map f).map (fun m => m.version) = db.map (fun m => m.version) := by
  induction db with
  | nil => rfl
  | cons a l ih => simp [h a, ih]

/-! ### Example rows used by witnesses and counterexamples -/

/-- A plain translated image material, version 0. -/
def baseMaterial : Material :=
  { id := "m1", type := "image", status := "翻译完成", confirmed := false,
    selected_result := "api", selected_translation_type := none,
    file_path := "uploads/a.jpg", translation_text_info := some "ocr",
    translation_error := none, llm_translation_result := none,
    edited_image_path := none, final_image_path := none,
    has_edited_version := false, edited_regions := none,
    pdf_session_id := none, entity_recognition_enabled := false,
    entity_recognition_mode := none, entity_recognition_result := none,
    entity_recognition_confirmed := false,
    entity_recognition_triggered := false,
    entity_user_edits := none, entity_recognition_error := none,
    processing_step := some "translated", processing_progress := 100,
    version := 0, client_id := "c1", updated_at := 0 }


/-! ### C1 — version discipline of the update operations -/

/-- C1 counterexample: `confirm_material` succeeds on a version-0 material
and leaves `version` at 0 instead of advancing it to 1, so not every
successful update operation increments the stored version. -/
theorem C1_counterexample :
    (confirm_material [baseMaterial] "m1" none 5).isSome = true
    ∧ ¬ ((confirm_material [baseMaterial] "m1" none 5).getD []).map
          (fun m => m.version) = [baseMaterial.version + 1] := by
  constructor
  · rfl
  · decide

/-- C1 (amended): only writes that go through `update_material_status`
advance `version`, and those advance it by exactly 1; the confirm,
unconfirm, save-regions and rotate handlers commit their changes with
every row's `version` unchanged. -/
theorem C1_version_discipline :
    (∀ (m : Material) (s : String) (ch : Changes) (now : Nat),
        (update_material_status m s ch now).version = m.version + 1)
    ∧ (∀ (db : List Material) (mid : String) (t : Option String)
          (now : Nat) (db2 : List Material),
        confirm_material db mid t now = some db2 →
        db2.map (fun m => m.version) = db.map (fun m => m.version))
    ∧ (∀ (db : List Material) (mid : String) (now : Nat)
          (db2 : List Material),
        unconfirm_material db mid now = some db2 →
        db2.map (fun m => m.version) = db.map (fun m => m.version))
    ∧ (∀ (m : Material) (rs : List String) (now : Nat),
        (save_material_regions m rs now).version = m.version)
    ∧ (∀ (m : Material) (img : Image) (now : Nat) (r : Material × Image),
        rotate_material m img now = some r → r.1.version = m.version) := by
  refine ⟨?_, ?_, ?_, ?_, ?_⟩
  · intro m s ch now
    rfl
  · intro db mid t now db2 h
    unfold confirm_material at h
    split at h
    · exact absurd h (by simp)
    · split at h
      · rw [Option.some.injEq] at h
        subst h
        apply map_version_congr
        intro m
        dsimp only
        split <;> rfl
      · rw [Option.some.injEq] at h
        subst h
        apply map_version_congr
        intro m
        dsimp only
        split
        · cases t with
          | none => rfl
          | some s' => dsimp only; split <;> rfl
        · rfl
  · intro db mid now db2 h
    unfold unconfirm_material at h
    split at h
    · exact absurd h (by simp)
    · split at h
      · rw [Option.some.injEq] at h
        subst h
        apply map_version_congr
        intro m
        dsimp only
        split <;> rfl
      · rw [Option.some.injEq] at h
        subst h
        apply map_version_congr
        intro m
        dsimp only
        split <;> rfl
  · intro m rs now
    rfl
  · intro m img now r h
    unfold rotate_material at h
    split at h
    · rw [Option.some.injEq] at h
      subst h
      rfl
    · exact absurd h (by simp)

/-- The confirm result on the singleton table, for the C1 witness. -/
def confirmedDb1 : List Material :=
  (confirm_material [baseMaterial] "m1" none 5).getD []

/-- The unconfirm result on the singleton table, for the C1 witness. -/
def unconfirmedDb1 : List Material :=
  (unconfirm_material [baseMaterial] "m1" 6).getD []

/-- The rotate result on a 2x2 image, for the C1 witness. -/
def rotatedPair1 : Material × Image :=
  (rotate_material baseMaterial [[1, 2], [3, 4]] 7).getD (baseMaterial, [])

/-- C1 witness: the amended version discipline instantiated at concrete
inputs. -/
theorem C1_version_discipline_witness :
    (update_material_status baseMaterial "翻译完成" {} 3).version
      = baseMaterial.version + 1
    ∧ confirmedDb1.map (fun m => m.version)
        = [baseMaterial].map (fun m => m.version)
    ∧ unconfirmedDb1.map (fun m => m.version)
        = [baseMaterial].map (fun m => m.version)
    ∧ (save_material_regions baseMaterial [] 4).version = baseMaterial.version
    ∧ rotatedPair1.1.version = baseMaterial.version :=
  ⟨C1_version_discipline.1 baseMaterial "翻译完成" {} 3,
   C1_version_discipline.2.1 [baseMaterial] "m1" none 5 confirmedDb1 (by rfl),
   C1_version_discipline.2.2.1 [baseMaterial] "m1" 6 unconfirmedDb1 (by rfl),
   C1_version_discipline.2.2.2.1 baseMaterial [] 4,
   C1_version_discipline.2.2.2.2 baseMaterial [[1, 2], [3, 4]] 7 rotatedPair1
     (by rfl)⟩

/-! ### C2 — the store's update carries no expected-version check -/

/-- C2 counterexample: the stored row has version 1 but the writer holds
a stale copy with version 0 (expected version 0 ≠ current version 1).
The claim demands a `VersionConflict` with the row left completely
unchanged; instead the update succeeds and the commit changes the stored
row (and even re-writes version 1, the stale version + 1). -/
theorem C2_counterexample :
    ¬ ({ baseMaterial with version := 1 } : Material).version
        = baseMaterial.version
    ∧ ¬ update_material_status_commit [{ baseMaterial with version := 1 }]
          baseMaterial "翻译失败"
          { translation_error := some (some "boom") } 9
        = [{ baseMaterial with version := 1 }]
    ∧ (update_material_status baseMaterial "翻译失败"
          { translation_error := some (some "boom") } 9).version = 1 := by
  refine ⟨by decide, by decide, rfl⟩

/-- C2 (amended): `update_material_status` performs no version
comparison at all.  For every caller row it unconditionally applies the
requested changes, sets `version` to the caller row's version + 1 and
`updated_at := now`, and succeeds; there is no `VersionConflict`
outcome, so a writer holding a stale row silently overwrites newer
data. -/
theorem C2_update_unconditional (caller : Material) (s : String)
    (ch : Changes) (now : Nat) :
    (update_material_status caller s ch now).version = caller.version + 1
    ∧ (update_material_status caller s ch now).updated_at = now
    ∧ (update_material_status caller s ch now).status = s
    ∧ (update_material_status caller s ch now).processing_step
        = ch.processing_step.getD caller.processing_step
    ∧ (update_material_status caller s ch now).processing_progress
        = ch.processing_progress.getD caller.processing_progress
    ∧ (update_material_status caller s ch now).translation_text_info
        = ch.translation_text_info.getD caller.translation_text_info
    ∧ (update_material_status caller s ch now).translation_error
        = ch.translation_error.getD caller.translation_error
    ∧ (update_material_status caller s ch now).llm_translation_result
        = ch.llm_translation_result.getD caller.llm_translation_result
    ∧ (update_material_status caller s ch now).id = caller.id :=
  ⟨rfl, rfl, rfl, rfl, rfl, rfl, rfl, rfl, rfl⟩

/-! ### C10 — llm-translate cache path -/

/-- C10 (amended): when the material is not held by the translation lock
(display status `翻译中`), a non-null `llm_translation_result` makes
`llm_translate_material` return the stored translations with the
material untouched; no provider call happens (the `proceed` outcome is
never reached). -/
theorem C10_cached (m : Material) (l : List LLMEntry)
    (h1 : m.llm_translation_result = some l)
    (h2 : ¬ m.status = "翻译中") :
    llm_translate_material m = (m, LtOutcome.cached l) := by
  unfold llm_translate_material check_translation_lock
  simp [h1, h2]

/-- A material with a stored LLM result, used by C10. -/
def c10mat : Material :=
  { baseMaterial with
    llm_translation_result := some [{ id := 0, translation := "T", original := "O" }] }

/-- C10 witness: the cache path at a concrete material. -/
theorem C10_cached_witness :
    llm_translate_material c10mat =
      (c10mat, LtOutcome.cached [{ id := 0, translation := "T", original := "O" }]) :=
  C10_cached c10mat [{ id := 0, translation := "T", original := "O" }]
    (by rfl) (by decide)

/-- C10 counterexample: the lock check runs before the cache check, so a
material whose status is `翻译中` gets a 409 conflict instead of its
stored translations, even though `llm_translation_result` is non-null
(the material is still left unchanged). -/
theorem C10_counterexample :
    ({ c10mat with status := "翻译中" } : Material).llm_translation_result.isSome
      = true
    ∧ llm_translate_material { c10mat with status := "翻译中" }
        = ({ c10mat with status := "翻译中" }, LtOutcome.conflict)
    ∧ ¬ (llm_translate_material { c10mat with status := "翻译中" }).2
        = LtOutcome.cached
            (({ c10mat with status := "翻译中" } : Material).llm_translation_result.getD []) := by
  refine ⟨rfl, by decide, by decide⟩

/-! ### C7 — recoverable entity-recognition failures -/

/-- Material eligible for entity recognition, used by C7. -/
def c7mat : Material :=
  { baseMaterial with entity_recognition_enabled := true }

/-- A recoverable provider failure, used by C7. -/
def c7er : EntityResult :=
  { success := false, error := some "service down", recoverable := true,
    entities := [], translationGuidance := none }

/-- C7 counterexample: a recoverable failure through
`start_entity_recognition` falls back to `translated` and answers 503,
but `entity_recognition_triggered` stays `false` — the handler disables
`entity_recognition_enabled` instead of setting the triggered flag the
claim requires. -/
theorem C7_counterexample :
    (start_entity_recognition c7mat c7er).2.code = 503
    ∧ (start_entity_recognition c7mat c7er).1.processing_step
        = some "translated"
    ∧ ¬ (start_entity_recognition c7mat c7er).1.entity_recognition_triggered
        = true := by
  refine ⟨rfl, rfl, by decide⟩

/-- C7 (amended): through `start_entity_recognition`, a recoverable
provider failure ends with step `translated`,
`entity_recognition_enabled = false`, the provider's error stored, and a
503 response with `recoverable: true`; `entity_recognition_triggered` is
left unchanged.  A non-recoverable failure ends with step `failed`
(500).  The fast endpoint instead sets `triggered := true` when it
starts, answers 500 on failure, and leaves the step at
`entity_recognizing`. -/
theorem C7_recoverable_failures (m : Material) (er : EntityResult)
    (hen : m.entity_recognition_enabled = true)
    (htti : ¬ m.translation_text_info = none)
    (hfail : er.success = false) :
    (er.recoverable = true →
      (start_entity_recognition m er).1.processing_step = some "translated"
      ∧ (start_entity_recognition m er).1.entity_recognition_enabled = false
      ∧ (start_entity_recognition m er).1.entity_recognition_error = er.error
      ∧ (start_entity_recognition m er).1.entity_recognition_triggered
          = m.entity_recognition_triggered
      ∧ (start_entity_recognition m er).2
          = { code := 503, recoverable := true, canContinue := true })
    ∧ (er.recoverable = false →
      (start_entity_recognition m er).1.processing_step = some "failed"
      ∧ (start_entity_recognition m er).1.entity_recognition_error = er.error
      ∧ (start_entity_recognition m er).2.code = 500)
    ∧ ((entity_recognition_fast m er).1.processing_step
        = some "entity_recognizing"
      ∧ (entity_recognition_fast m er).1.entity_recognition_triggered = true
      ∧ (entity_recognition_fast m er).2.code = 500) := by
  unfold start_entity_recognition entity_recognition_fast
  refine ⟨?_, ?_, ?_⟩
  · intro hrec
    simp [hen, htti, hfail, hrec]
  · intro hrec
    simp [hen, htti, hfail, hrec]
  · simp [htti, hfail]

/-- C7 witness: the amended statement at a concrete recoverable
failure. -/
theorem C7_recoverable_failures_witness :
    (c7er.recoverable = true →
      (start_entity_recognition c7mat c7er).1.processing_step
        = some "translated"
      ∧ (start_entity_recognition c7mat c7er).1.entity_recognition_enabled
          = false
      ∧ (start_entity_recognition c7mat c7er).1.entity_recognition_error
          = c7er.error
      ∧ (start_entity_recognition c7mat c7er).1.entity_recognition_triggered
          = c7mat.entity_recognition_triggered
      ∧ (start_entity_recognition c7mat c7er).2
          = { code := 503, recoverable := true, canContinue := true })
    ∧ (c7er.recoverable = false →
      (start_entity_recognition c7mat c7er).1.processing_step = some "failed"
      ∧ (start_entity_recognition c7mat c7er).1.entity_recognition_error
          = c7er.error
      ∧ (start_entity_recognition c7mat c7er).2.code = 500)
    ∧ ((entity_recognition_fast c7mat c7er).1.processing_step
        = some "entity_recognizing"
      ∧ (entity_recognition_fast c7mat c7er).1.entity_recognition_triggered
          = true
      ∧ (entity_recognition_fast c7mat c7er).2.code = 500) :=
  C7_recoverable_failures c7mat c7er (by rfl) (by decide) (by rfl)

/-! ### C6 — confirmed entities imply stored user edits -/

/-- Material with an OCR result, used by C6. -/
def c6mat : Material :=
  baseMaterial

/-- A successful deep-mode provider result with no `translationGuidance`
key, used by C6. -/
def c6er : EntityResult :=
  { success := true, error := none, recoverable := false,
    entities := ["北京大学"], translationGuidance := none }

/-- C6 counterexample: deep-mode auto-confirmation with a provider
result lacking `translationGuidance` sets
`entity_recognition_confirmed = true` while `entity_user_edits` stays
null, violating the claimed invariant. -/
theorem C6_counterexample :
    (entity_recognition_deep c6mat c6er 4).1.entity_recognition_confirmed
      = true
    ∧ (entity_recognition_deep c6mat c6er 4).1.entity_user_edits = none := by
  refine ⟨rfl, rfl⟩

/-- C6 (amended): user confirmation (`confirm_entities`) always stores a
non-null `entity_user_edits` on every row whose
`entity_recognition_confirmed` flag it raises, and deep-mode
auto-confirmation stores non-null edits whenever the provider result
carries a non-empty `translationGuidance`; with an absent or empty
guidance dict, deep mode confirms without storing edits, so the
invariant does not hold unconditionally. -/
theorem C6_confirm_edits :
    (∀ (db : List Material) (mid : String) (es : List String)
        (g : GuidanceDict) (now : Nat) (r : CeResult),
      confirm_entities db mid es g now = some r →
      List.Forall₂ (fun o n => n.entity_recognition_confirmed = true →
        o.entity_recognition_confirmed = true ∨ ¬ n.entity_user_edits = none)
        db r.db)
    ∧ (∀ (m : Material) (er : EntityResult) (now : Nat) (g : GuidanceDict),
        ¬ m.translation_text_info = none → er.success = true →
        er.translationGuidance = some g → ¬ g = [] →
        (entity_recognition_deep m er now).1.entity_recognition_confirmed
          = true
        ∧ ¬ (entity_recognition_deep m er now).1.entity_user_edits = none) := by
  constructor
  · intro db mid es g now r h
    unfold confirm_entities at h
    split at h
    · exact absurd h (by simp)
    · split at h
      · rw [Option.some.injEq] at h
        subst h
        rw [List.forall₂_same]
        intro a _ hconf
        exact Or.inl hconf
      · rw [Option.some.injEq] at h
        subst h
        apply forall2_map_self
        intro m _
        dsimp only
        split
        · intro _
          exact Or.inr (by simp)
        · split
          · split
            · intro _
              refine Or.inr ?_
              dsimp only
              split <;> simp
            · intro hc
              exact Or.inl hc
          · intro hc
            exact Or.inl hc
  · intro m er now g htti hsucc hg hne
    unfold entity_recognition_deep
    simp [htti, hsucc, hg, hne]

/-! ### C5 — confirm-entities guard and sibling propagation -/

/-- Whether `o` is in the PDF session of `material` (the
`filter_by(pdf_session_id=...)` query of `confirm_entities`); `false`
when the material has no session. -/
def isSiblingOf (material o : Material) : Bool :=
  match material.pdf_session_id with
  | some sid => o.pdf_session_id = some sid
  | none => false

/-- Row-wise effect of a successful `confirm_entities`: the material
itself gets the edits, the confirmed flag and the `entity_confirmed`
step; every session sibling gets the edits and the confirmed flag
whatever its step, but transitions to `entity_confirmed` only from
`entity_pending_confirm`; all other rows are unchanged. -/
def confirmEntitiesRel (material : Material) (mid : String) (ue : UserEdits)
    (o n : Material) : Prop :=
  (o.id = mid →
    n = { o with entity_user_edits := some ue,
                 entity_recognition_confirmed := true,
                 processing_step := some "entity_confirmed" })
  ∧ (¬ o.id = mid → isSiblingOf material o = true →
      n.entity_user_edits = some ue
      ∧ n.entity_recognition_confirmed = true
      ∧ (o.processing_step = some "entity_pending_confirm" →
          n.processing_step = some "entity_confirmed")
      ∧ (¬ o.processing_step = some "entity_pending_confirm" →
          n.processing_step = o.processing_step)
      ∧ n.edited_regions = o.edited_regions
      ∧ n.version = o.version
      ∧ n.llm_translation_result = o.llm_translation_result
      ∧ n.id = o.id
      ∧ n.confirmed = o.confirmed)
  ∧ (¬ o.id = mid → isSiblingOf material o = false → n = o)

/-- C5 (amended): `confirm_entities` rejects with 400 and no change
unless the material is in `entity_pending_confirm`; on success it
persists the edits, confirms and transitions the material, propagates
the edits and the confirmed flag to EVERY session sibling (not only the
ones still pending confirmation), transitions exactly the pending
siblings, leaves the other rows unchanged, and starts the LLM task. -/
theorem C5_confirm_entities (db : List Material) (mid : String)
    (es : List String) (g : GuidanceDict) (now : Nat) (r : CeResult)
    (material : Material)
    (hfind : db.find? (fun m => m.id = mid) = some material)
    (h : confirm_entities db mid es g now = some r) :
    (¬ material.processing_step = some "entity_pending_confirm" →
      r = { db := db, code := 400, llmStarted := false })
    ∧ (material.processing_step = some "entity_pending_confirm" →
      r.code = 200 ∧ r.llmStarted = true
      ∧ List.Forall₂
          (confirmEntitiesRel material mid
            { entities := es, translationGuidance := g, confirmedAt := now })
          db r.db) := by
  unfold confirm_entities at h
  rw [hfind] at h
  split at h
  · rename_i heq
    simp at heq
  · rename_i mat2 heq
    rw [Option.some.injEq] at heq
    subst heq
    split at h
    · rename_i hguard
      rw [Option.some.injEq] at h
      subst h
      constructor
      · intro _
        rfl
      · intro hstep
        exact absurd hstep hguard
    · rename_i hguard
      rw [Option.some.injEq] at h
      subst h
      constructor
      · intro hne
        exact absurd (not_not.mp hguard) hne
      · intro _
        refine ⟨rfl, rfl, ?_⟩
        apply forall2_map_self
        intro m _
        refine ⟨?_, ?_, ?_⟩
        · intro hid
          simp [hid]
        · intro hid hsib
          cases hp : material.pdf_session_id with
          | none =>
            simp [isSiblingOf, hp] at hsib
          | some sid =>
            simp [isSiblingOf, hp] at hsib
            by_cases hpend : m.processing_step = some "entity_pending_confirm"
            · simp [hid, hp, hsib, hpend]
            · simp [hid, hp, hsib, hpend]
        · intro hid hsib
          cases hp : material.pdf_session_id with
          | none =>
            simp [hid, hp]
          | some sid =>
            simp [isSiblingOf, hp] at hsib
            simp [hid, hp, hsib]

/-- A PDF page waiting for entity confirmation, used by C5/C6. -/
def c5mat : Material :=
  { baseMaterial with
    processing_step := some "entity_pending_confirm",
    pdf_session_id := some "S" }

/-- A sibling page of the same PDF session that is NOT pending
confirmation, used by C5/C6. -/
def c5sib : Material :=
  { baseMaterial with
    id := "m2",
    processing_step := some "translated",
    pdf_session_id := some "S" }

/-- Guidance payload used by the C5/C6 witnesses. -/
def c5guid : GuidanceDict := [("organizations", ["腾讯 -> Tencent"])]

/-- The edits record stored by the C5 witness call. -/
def c5edits : UserEdits :=
  { entities := ["e1"], translationGuidance := c5guid, confirmedAt := 7 }

/-- The result of the C5 witness call. -/
def c5res : CeResult :=
  (confirm_entities [c5mat, c5sib] "m1" ["e1"] c5guid 7).getD
    { db := [], code := 0, llmStarted := false }

/-- C5 witness: the amended statement at a two-page PDF session. -/
theorem C5_confirm_entities_witness :
    (¬ c5mat.processing_step = some "entity_pending_confirm" →
      c5res = { db := [c5mat, c5sib], code := 400, llmStarted := false })
    ∧ (c5mat.processing_step = some "entity_pending_confirm" →
      c5res.code = 200 ∧ c5res.llmStarted = true
      ∧ List.Forall₂ (confirmEntitiesRel c5mat "m1" c5edits)
          [c5mat, c5sib] c5res.db) :=
  C5_confirm_entities [c5mat, c5sib] "m1" ["e1"] c5guid 7 c5res c5mat
    (by rfl) (by rfl)

/-- C5 counterexample: the sibling `c5sib` is in step `translated`, not
`entity_pending_confirm`, yet after `confirm_entities` on the first page
it carries the propagated `entity_user_edits` — the claim's "exactly
those siblings still in entity_pending_confirm" is false. -/
theorem C5_counterexample :
    ¬ c5sib.processing_step = some "entity_pending_confirm"
    ∧ (confirm_entities [c5mat, c5sib] "m1" [] [] 7).isSome = true
    ∧ ((confirm_entities [c5mat, c5sib] "m1" [] [] 7).getD
        { db := [], code := 0, llmStarted := false }).db.map
          (fun m => m.entity_user_edits.isSome) = [true, true] := by
  refine ⟨by decide, rfl, by decide⟩

/-- A successful deep-mode result with non-empty guidance, for the C6
witness. -/
def c6erg : EntityResult :=
  { success := true, error := none, recoverable := false,
    entities := ["马云"], translationGuidance := some [("persons", ["马云 -> Jack Ma"])] }

/-- C6 witness: the amended statement at the two-page session and at a
deep run with non-empty guidance. -/
theorem C6_confirm_edits_witness :
    List.Forall₂ (fun o n => n.entity_recognition_confirmed = true →
      o.entity_recognition_confirmed = true ∨ ¬ n.entity_user_edits = none)
      [c5mat, c5sib] c5res.db
    ∧ ((entity_recognition_deep c6mat c6erg 4).1.entity_recognition_confirmed
        = true
      ∧ ¬ (entity_recognition_deep c6mat c6erg 4).1.entity_user_edits
          = none) :=
  ⟨C6_confirm_edits.1 [c5mat, c5sib] "m1" ["e1"] c5guid 7 c5res (by rfl),
   C6_confirm_edits.2 c6mat c6erg 4 [("persons", ["马云 -> Jack Ma"])]
     (by decide) (by rfl) (by rfl) (by decide)⟩

/-! ### C3 — unconfirm / C4 — confirm -/

/-- The rows a confirm/unconfirm call touches: with a PDF session every
row of the session, otherwise the addressed material itself. -/
def sessionTargets (material : Material) (mid : String) (o : Material) :
    Bool :=
  match material.pdf_session_id with
  | some sid => o.pdf_session_id = some sid
  | none => o.id = mid

/-- Row-wise effect of `unconfirm_material`: targeted rows get
`confirmed := false` and status `翻译完成`; `processing_step`,
`edited_regions`, `final_image_path`, `has_edited_version` and the LLM
result are preserved on every row, and untargeted rows are unchanged. -/
def unconfirmFrameRel (material : Material) (mid : String) (now : Nat)
    (o n : Material) : Prop :=
  n.processing_step = o.processing_step
  ∧ n.edited_regions = o.edited_regions
  ∧ n.final_image_path = o.final_image_path
  ∧ n.has_edited_version = o.has_edited_version
  ∧ n.llm_translation_result = o.llm_translation_result
  ∧ n.version = o.version
  ∧ n.id = o.id
  ∧ (sessionTargets material mid o = true →
      n.confirmed = false ∧ n.status = "翻译完成" ∧ n.updated_at = now)
  ∧ (sessionTargets material mid o = false → n = o)

/-- C3 (amended): `unconfirm_material` resets `confirmed` and the
display status to `翻译完成` on the targeted rows, but never computes a
prior step from `llm_translation_result`: `processing_step` is left
exactly as it was, and `edited_regions`, `final_image_path`,
`has_edited_version` are preserved. -/
theorem C3_unconfirm_frame (db db2 : List Material) (mid : String)
    (now : Nat) (material : Material)
    (hfind : db.find? (fun m => m.id = mid) = some material)
    (h : unconfirm_material db mid now = some db2) :
    List.Forall₂ (unconfirmFrameRel material mid now) db db2 := by
  unfold unconfirm_material at h
  rw [hfind] at h
  split at h
  · rename_i heq
    simp at heq
  · rename_i mat2 heq
    rw [Option.some.injEq] at heq
    subst heq
    split at h
    · rename_i sid hp
      rw [Option.some.injEq] at h
      subst h
      apply forall2_map_self
      intro m _
      by_cases htar : m.pdf_session_id = some sid
      · simp [unconfirmFrameRel, sessionTargets, hp, htar]
      · simp [unconfirmFrameRel, sessionTargets, hp, htar]
    · rename_i hp
      rw [Option.some.injEq] at h
      subst h
      apply forall2_map_self
      intro m _
      by_cases htar : m.id = mid
      · simp [unconfirmFrameRel, sessionTargets, hp, htar]
      · simp [unconfirmFrameRel, sessionTargets, hp, htar]

/-- A confirmed material carrying an LLM result, used by C3. -/
def c3mat : Material :=
  { baseMaterial with
    confirmed := true,
    status := "已确认",
    llm_translation_result := some [{ id := 0, translation := "t", original := "o" }] }

/-- The unconfirm result at `c3mat`, used by the C3 witness. -/
def c3res : List Material :=
  (unconfirm_material [c3mat] "m1" 6).getD []

/-- C3 counterexample: `c3mat` has a non-null `llm_translation_result`,
so the claim requires unconfirm to set `processing_step` to
`llm_translated`; the handler leaves the step at its prior value
(`translated`). -/
theorem C3_counterexample :
    c3mat.llm_translation_result.isSome = true
    ∧ (unconfirm_material [c3mat] "m1" 6).isSome = true
    ∧ ¬ ((unconfirm_material [c3mat] "m1" 6).getD []).map
          (fun m => m.processing_step) = [some "llm_translated"] := by
  refine ⟨rfl, rfl, by decide⟩

/-- C3 witness: the amended frame property at `c3mat`. -/
theorem C3_unconfirm_frame_witness :
    List.Forall₂ (unconfirmFrameRel c3mat "m1" 6) [c3mat] c3res :=
  C3_unconfirm_frame [c3mat] c3res "m1" 6 c3mat (by rfl) (by rfl)

/-- Row-wise effect of `confirm_material`: targeted rows get
`confirmed := true` and status `已确认`; `processing_step` and `version`
are preserved everywhere; `selected_result` is recorded only on the
non-PDF path, for image materials with a requested type in
`[api, latex]`; untargeted rows are unchanged. -/
def confirmFrameRel (material : Material) (mid : String)
    (t : Option String) (now : Nat) (o n : Material) : Prop :=
  n.processing_step = o.processing_step
  ∧ n.version = o.version
  ∧ n.id = o.id
  ∧ (sessionTargets material mid o = true →
      n.confirmed = true ∧ n.status = "已确认" ∧ n.updated_at = now)
  ∧ (sessionTargets material mid o = false → n = o)
  ∧ (material.pdf_session_id.isSome = true →
      n.selected_result = o.selected_result
      ∧ n.selected_translation_type = o.selected_translation_type)
  ∧ (material.pdf_session_id = none → o.id = mid →
      (((t = some "api" ∨ t = some "latex") ∧ o.type = "image") →
        n.selected_translation_type = t ∧ some n.selected_result = t)
      ∧ (¬ ((t = some "api" ∨ t = some "latex") ∧ o.type = "image") →
        n.selected_translation_type = o.selected_translation_type
        ∧ n.selected_result = o.selected_result))

/-- C4 (amended): `confirm_material` sets `confirmed := true` and the
display status `已确认` on the targeted rows — all session rows in one
commit for a PDF material — but never sets `processing_step` to
`confirmed` (the step is untouched); `selected_result` is recorded only
for non-PDF image materials with a valid requested type, and never on
the PDF path. -/
theorem C4_confirm (db db2 : List Material) (mid : String)
    (t : Option String) (now : Nat) (material : Material)
    (hfind : db.find? (fun m => m.id = mid) = some material)
    (h : confirm_material db mid t now = some db2) :
    List.Forall₂ (confirmFrameRel material mid t now) db db2 := by
  unfold confirm_material at h
  rw [hfind] at h
  split at h
  · rename_i heq
    simp at heq
  · rename_i mat2 heq
    rw [Option.some.injEq] at heq
    subst heq
    split at h
    · rename_i sid hp
      rw [Option.some.injEq] at h
      subst h
      apply forall2_map_self
      intro m _
      by_cases htar : m.pdf_session_id = some sid
      · simp [confirmFrameRel, sessionTargets, hp, htar]
      · simp [confirmFrameRel, sessionTargets, hp, htar]
    · rename_i hp
      rw [Option.some.injEq] at h
      subst h
      apply forall2_map_self
      intro m _
      by_cases htar : m.id = mid
      · cases t with
        | none =>
          simp [confirmFrameRel, sessionTargets, hp, htar]
        | some s =>
          by_cases hval : (s = "api" ∨ s = "latex") ∧ m.type = "image"
          · simp [confirmFrameRel, sessionTargets, hp, htar, hval]
          · simp [confirmFrameRel, sessionTargets, hp, htar, hval]
      · simp [confirmFrameRel, sessionTargets, hp, htar]

/-- C4 counterexample: a non-PDF image material confirmed with a valid
`translation_type`; the call succeeds, yet `processing_step` is not set
to `confirmed` — it keeps its prior value. -/
theorem C4_counterexample :
    (confirm_material [baseMaterial] "m1" (some "api") 5).isSome = true
    ∧ ¬ ((confirm_material [baseMaterial] "m1" (some "api") 5).getD []).map
          (fun m => m.processing_step) = [some "confirmed"] := by
  refine ⟨rfl, by decide⟩

/-- The confirm result over the two-page PDF session, used by the C4
witness. -/
def c4res : List Material :=
  (confirm_material [c5mat, c5sib] "m1" (some "api") 8).getD []

/-- C4 witness: the amended frame property over the PDF session. -/
theorem C4_confirm_witness :
    List.Forall₂ (confirmFrameRel c5mat "m1" (some "api") 8)
      [c5mat, c5sib] c4res :=
  C4_confirm [c5mat, c5sib] c4res "m1" (some "api") 8 c5mat (by rfl) (by rfl)

/-! ### C8 — rotate -/

/-- C8 (amended): `rotate_material` overwrites the file with the image
rotated 90 degrees clockwise, clears `translation_text_info`,
`llm_translation_result`, `edited_regions`, `final_image_path` and
`has_edited_version`, sets display status `已上传` and progress 0, and
sets `processing_step` to NULL — not to `uploaded`; it starts no
translation task and leaves `version` and identity untouched. -/
theorem C8_rotate (m : Material) (img : Image) (now : Nat)
    (r : Material × Image)
    (hr : rotate_material m img now = some r) :
    r.1.translation_text_info = none
    ∧ r.1.llm_translation_result = none
    ∧ r.1.edited_regions = none
    ∧ r.1.final_image_path = none
    ∧ r.1.edited_image_path = none
    ∧ r.1.has_edited_version = false
    ∧ r.1.status = "已上传"
    ∧ r.1.processing_step = none
    ∧ r.1.processing_progress = 0
    ∧ r.1.updated_at = now
    ∧ r.1.version = m.version
    ∧ r.1.confirmed = m.confirmed
    ∧ r.1.id = m.id
    ∧ r.1.file_path = m.file_path
    ∧ r.2 = rotateCW img := by
  unfold rotate_material at hr
  split at hr
  · rw [Option.some.injEq] at hr
    subst hr
    exact ⟨rfl, rfl, rfl, rfl, rfl, rfl, rfl, rfl, rfl, rfl, rfl, rfl, rfl,
           rfl, rfl⟩
  · exact absurd hr (by simp)

/-- The rotate result at a concrete 2x3 image, used by the C8 facts. -/
def c8res : Material × Image :=
  (rotate_material c3mat [[1, 2, 3], [4, 5, 6]] 9).getD (baseMaterial, [])

/-- C8 witness: the amended rotate contract at `c3mat` with a 2x3
image (the rotated file is the 3x2 clockwise rotation). -/
theorem C8_rotate_witness :
    c8res.1.translation_text_info = none
    ∧ c8res.1.llm_translation_result = none
    ∧ c8res.1.edited_regions = none
    ∧ c8res.1.final_image_path = none
    ∧ c8res.1.edited_image_path = none
    ∧ c8res.1.has_edited_version = false
    ∧ c8res.1.status = "已上传"
    ∧ c8res.1.processing_step = none
    ∧ c8res.1.processing_progress = 0
    ∧ c8res.1.updated_at = 9
    ∧ c8res.1.version = c3mat.version
    ∧ c8res.1.confirmed = c3mat.confirmed
    ∧ c8res.1.id = c3mat.id
    ∧ c8res.1.file_path = c3mat.file_path
    ∧ c8res.2 = rotateCW [[1, 2, 3], [4, 5, 6]] :=
  C8_rotate c3mat [[1, 2, 3], [4, 5, 6]] 9 c8res (by rfl)

/-- C8 counterexample: after a successful rotate the claim requires
`processing_step = uploaded`; the handler stores NULL instead (and the
display status `已上传`). -/
theorem C8_counterexample :
    (rotate_material baseMaterial [[1, 2], [3, 4]] 9).isSome = true
    ∧ ¬ ((rotate_material baseMaterial [[1, 2], [3, 4]] 9).map
          (fun r => r.1.processing_step)) = some (some "uploaded") := by
  refine ⟨rfl, by decide⟩

/-! ### C9 — LLM batch post-processing -/

theorem swapFix_id (regions : List Region) (t : LLMEntry) :
    (swapFix regions t).id = t.id := by
  unfold swapFix
  dsimp only
  split
  · split
    · split
      · split <;> rfl
      · rfl
    · rfl
  · rfl

theorem mem_insertById {y e : LLMEntry} {l : List LLMEntry} :
    y ∈ insertById e l ↔ y = e ∨ y ∈ l := by
  induction l with
  | nil => simp [insertById]
  | cons x xs ih =>
    simp only [insertById]
    split
    · simp [List.mem_cons]
    · simp only [List.mem_cons, ih]
      tauto

theorem insertById_pairwise (e : LLMEntry) (l : List LLMEntry)
    (h : l.Pairwise (fun a b => a.id ≤ b.id)) :
    (insertById e l).Pairwise (fun a b => a.id ≤ b.id) := by
  induction l with
  | nil => simp [insertById]
  | cons x xs ih =>
    rw [List.pairwise_cons] at h
    obtain ⟨hx, hxs⟩ := h
    simp only [insertById]
    split
    · rename_i hlt
      rw [List.pairwise_cons]
      refine ⟨?_, List.pairwise_cons.mpr ⟨hx, hxs⟩⟩
      intro y hy
      rcases List.mem_cons.mp hy with rfl | hy
      · exact Nat.le_of_lt hlt
      · exact Nat.le_trans (Nat.le_of_lt hlt) (hx y hy)
    · rename_i hge
      rw [List.pairwise_cons]
      refine ⟨?_, ih hxs⟩
      intro y hy
      rcases mem_insertById.mp hy with rfl | hy
      · exact Nat.le_of_not_lt hge
      · exact hx y hy

theorem sortById_pairwise (l : List LLMEntry) :
    (sortById l).Pairwise (fun a b => a.id ≤ b.id) := by
  have key : ∀ (l2 : List LLMEntry) (acc : List LLMEntry),
      acc.Pairwise (fun a b => a.id ≤ b.id) →
      (l2.foldl (fun acc e => insertById e acc) acc).Pairwise
        (fun a b => a.id ≤ b.id) := by
    intro l2
    induction l2 with
    | nil => intro acc h; exact h
    | cons x xs ih =>
      intro acc h
      exact ih _ (insertById_pairwise x acc h)
  exact key l [] (by simp)

theorem insertById_perm (e : LLMEntry) (l : List LLMEntry) :
    (insertById e l).Perm (e :: l) := by
  induction l with
  | nil => simp [insertById]
  | cons x xs ih =>
    simp only [insertById]
    split
    · exact List.Perm.refl _
    · exact (ih.cons x).trans (List.Perm.swap e x xs)

theorem sortById_perm (l : List LLMEntry) : (sortById l).Perm l := by
  have key : ∀ (l2 acc : List LLMEntry),
      (l2.foldl (fun acc e => insertById e acc) acc).Perm (l2 ++ acc) := by
    intro l2
    induction l2 with
    | nil => intro acc; simp
    | cons x xs ih =>
      intro acc
      refine (ih (insertById x acc)).trans ?_
      refine (List.Perm.append_left xs (insertById_perm x acc)).trans ?_
      exact List.perm_middle
  simpa using key l []

/-- Ids of the regions with a non-empty source text (the `input_ids` of
`_optimize_batch`). -/
def srcIds (regions : List Region) : List Nat :=
  (regions.filter (fun r => r.src ≠ "")).map (fun r => r.id)

/-- Ids present in the parsed model output (the `output_ids` of
`_optimize_batch`). -/
def parsedIds (regions : List Region) (out : String) : List Nat :=
  (parse_llm_output out regions).map (fun t => t.id)

theorem find?_id_eq_self {regions : List Region} {r : Region}
    (hnd : (regions.map (fun x => x.id)).Nodup) (hr : r ∈ regions) :
    regions.find? (fun x => x.id = r.id) = some r := by
  induction regions with
  | nil => cases hr
  | cons a l ih =>
    rw [List.map_cons, List.nodup_cons] at hnd
    obtain ⟨ha, hl⟩ := hnd
    rcases List.mem_cons.mp hr with rfl | hr2
    · rw [List.find?_cons_of_pos _ (by simp)]
    · have hne : ¬ a.id = r.id := by
        intro he
        exact ha (he ▸ List.mem_map.mpr ⟨r, hr2, rfl⟩)
      rw [List.find?_cons_of_neg _ (by simp [hne])]
      exact ih hl hr2

theorem map_filter_comm {α β : Type} (f : α → β) (p : α → Bool)
    (q : β → Bool) (l : List α) :
    (l.filter (fun a => p a && q (f a))).map f
      = ((l.filter p).map f).filter q := by
  induction l with
  | nil => rfl
  | cons a tl ih =>
    by_cases hp : p a
    · by_cases hq : q (f a)
      · simp [List.filter_cons, hp, hq, ih]
      · simp [List.filter_cons, hp, hq, ih]
    · simp [List.filter_cons, hp, ih]

theorem srcIds_nodup {regions : List Region}
    (hnd : (regions.map (fun r => r.id)).Nodup) :
    (srcIds regions).Nodup := by
  unfold srcIds
  exact List.Nodup.sublist
    ((List.filter_sublist regions).map (fun r => r.id)) hnd

theorem mem_srcIds_iff {regions : List Region} {r : Region}
    (hnd : (regions.map (fun r => r.id)).Nodup) (hr : r ∈ regions) :
    r.id ∈ srcIds regions ↔ ¬ r.src = "" := by
  unfold srcIds
  constructor
  · intro hmem
    obtain ⟨r2, hr2mem, hr2id⟩ := List.mem_map.mp hmem
    rw [List.mem_filter] at hr2mem
    obtain ⟨hr2reg, hr2src⟩ := hr2mem
    have heq := List.inj_on_of_nodup_map hnd hr2reg hr hr2id
    subst heq
    simpa using hr2src
  · intro hsrc
    exact List.mem_map.mpr ⟨r, List.mem_filter.mpr ⟨hr, by simpa using hsrc⟩, rfl⟩

theorem map_swapFix_ids (regions : List Region) (l : List LLMEntry) :
    (l.map (swapFix regions)).map (fun t => t.id) = l.map (fun t => t.id) := by
  induction l with
  | nil => rfl
  | cons a tl ih => simp [swapFix_id, ih]

theorem optimize_batch_ids {regions : List Region} {out : String}
    (hnd : (regions.map (fun r => r.id)).Nodup)
    (hE : (regions.filter (fun r => r.src ≠ "")).isEmpty = false) :
    (optimize_batch regions out).map (fun t => t.id)
      = parsedIds regions out
        ++ (srcIds regions).filter
            (fun i => ¬ (parsedIds regions out).contains i) := by
  unfold optimize_batch
  simp only [hE, Bool.false_eq_true, if_false]
  rw [map_swapFix_ids, List.map_append]
  congr 1
  rw [List.map_map]
  have hcongr :
      regions.filter (fun r =>
          (((regions.filter (fun r => r.src ≠ "")).map (fun r => r.id)).filter
            (fun i => ¬ ((parse_llm_output out regions).map
                (fun t => t.id)).contains i)).contains r.id)
        = regions.filter (fun r =>
            (r.src ≠ "" : Bool)
            && ¬ ((parse_llm_output out regions).map
                  (fun t => t.id)).contains r.id) := by
    apply List.filter_congr
    intro r hr
    have hiff := mem_srcIds_iff hnd hr
    unfold srcIds at hiff
    simp only [List.elem_eq_mem, List.mem_filter, decide_eq_true_eq,
      Bool.and_eq_true, Bool.not_eq_true', decide_eq_false_iff_not] at *
    by_cases hs : r.id ∈ ((parse_llm_output out regions).map (fun t => t.id))
    · by_cases hsrc : r.src = ""
      · have h1 : r.id ∉ (regions.filter (fun r => decide ¬r.src = "")).map
            (fun r => r.id) := fun hmem => (hiff.mp hmem) hsrc
        simp [hs, hsrc, h1]
      · have h1 := hiff.mpr hsrc
        simp [hs, hsrc, h1]
    · by_cases hsrc : r.src = ""
      · have h1 : r.id ∉ (regions.filter (fun r => decide ¬r.src = "")).map
            (fun r => r.id) := fun hmem => (hiff.mp hmem) hsrc
        simp [hs, hsrc]
        simpa using h1
      · have h1 := hiff.mpr hsrc
        simp [hs, hsrc]
        simpa using h1
  rw [hcongr]
  have := map_filter_comm (fun r : Region => r.id)
      (fun r : Region => (r.src ≠ "" : Bool))
      (fun i : Nat => ¬ ((parse_llm_output out regions).map
          (fun t => t.id)).contains i) regions
  exact this

theorem parsed_append_missing_perm {regions : List Region} {out : String}
    (hnd : (regions.map (fun r => r.id)).Nodup)
    (hsub : ∀ i ∈ parsedIds regions out, i ∈ srcIds regions)
    (hpnd : (parsedIds regions out).Nodup) :
    (parsedIds regions out
      ++ (srcIds regions).filter
          (fun i => ¬ (parsedIds regions out).contains i)).Perm
      (srcIds regions) := by
  have hsnd := srcIds_nodup hnd
  refine (List.perm_ext_iff_of_nodup ?_ hsnd).mpr ?_
  · rw [List.nodup_append]
    refine ⟨hpnd, List.Nodup.sublist (List.filter_sublist _) hsnd, ?_⟩
    intro a ha hb
    rw [List.mem_filter] at hb
    have := hb.2
    simp at this
    exact this ha
  · intro a
    simp only [List.mem_append, List.mem_filter, List.elem_eq_mem,
      decide_eq_true_eq, Bool.not_eq_true', decide_eq_false_iff_not]
    constructor
    · rintro (h | ⟨h, _⟩)
      · exact hsub a h
      · exact h
    · intro h
      by_cases hp : a ∈ parsedIds regions out
      · exact Or.inl hp
      · exact Or.inr ⟨h, hp⟩

theorem parse_llm_output_pairwise (out : String) (regions : List Region) :
    (parse_llm_output out regions).Pairwise (fun a b => a.id ≤ b.id) := by
  unfold parse_llm_output
  exact sortById_pairwise _

/-- The fallback entries appended by `_optimize_batch` for the region
ids missing from the model output. -/
def fallbackEntries (regions : List Region) (out : String) : List LLMEntry :=
  (regions.filter (fun r =>
      ((srcIds regions).filter
        (fun i => ¬ (parsedIds regions out).contains i)).contains r.id)).map
    (fun r => { id := r.id, translation := r.dst, original := r.dst })

theorem optimize_batch_eq_of_ne {regions : List Region} {out : String}
    (hE : (regions.filter (fun r => r.src ≠ "")).isEmpty = false) :
    optimize_batch regions out
      = ((parse_llm_output out regions) ++ fallbackEntries regions out).map
          (swapFix regions) := by
  unfold optimize_batch fallbackEntries srcIds parsedIds
  simp only [hE, Bool.false_eq_true, if_false]

theorem swapFix_fallback {regions : List Region} {r : Region}
    (hnd : (regions.map (fun x => x.id)).Nodup) (hr : r ∈ regions) :
    (swapFix regions
        { id := r.id, translation := r.dst, original := r.dst }).translation
      = r.dst := by
  unfold swapFix
  dsimp only
  split
  · rename_i j hb
    split
    · rw [find?_id_eq_self hnd hr]
      dsimp only
      split
      · rfl
      · rfl
    · rfl
  · rfl

theorem swapFix_swap (regions : List Region) (t : LLMEntry) (j : Nat)
    (r : Region)
    (hb : baidu_to_id regions (baiduKey t.translation) = some j)
    (hj : ¬ j = t.id)
    (hf : regions.find? (fun x => x.id = t.id) = some r)
    (hd : ¬ r.dst = "") :
    (swapFix regions t).translation = r.dst := by
  unfold swapFix
  dsimp only
  rw [hb]
  dsimp only
  rw [if_pos hj]
  rw [hf]
  dsimp only
  rw [if_pos (by simpa using hd)]

/-- C9 (amended): over the parsed-and-postprocessed result of
`_optimize_batch` (model output given as input): when the region ids are
distinct and the model output ids are distinct ids of regions with
non-empty `src`, the result carries exactly one entry per such region
(as a permutation of their ids); an entry whose id was absent from the
model output carries its region's OCR `dst`; the parsed entries form the
sorted (by id) prefix, with the fallback entries appended AFTER them, so
the whole list is sorted whenever no id is missing; and the swap-error
correction replaces an entry whose translation equals (after strip and
lower-casing) the Baidu `dst` recorded for a different id by its own
region's `dst`. -/
theorem C9_optimize_batch (regions : List Region) (out : String)
    (hnd : (regions.map (fun r => r.id)).Nodup)
    (hsub : ∀ i ∈ parsedIds regions out, i ∈ srcIds regions)
    (hpnd : (parsedIds regions out).Nodup) :
    ((optimize_batch regions out).map (fun t => t.id)).Perm (srcIds regions)
    ∧ (∀ r ∈ regions, ¬ r.src = "" → r.id ∉ parsedIds regions out →
        ∀ t ∈ optimize_batch regions out, t.id = r.id →
          t.translation = r.dst)
    ∧ ((∀ i ∈ srcIds regions, i ∈ parsedIds regions out) →
        (optimize_batch regions out).Pairwise (fun a b => a.id ≤ b.id))
    ∧ ((optimize_batch regions out).take
          (parse_llm_output out regions).length).Pairwise
        (fun a b => a.id ≤ b.id)
    ∧ (∀ t ∈ parse_llm_output out regions,
        swapFix regions t ∈ optimize_batch regions out)
    ∧ (∀ (t : LLMEntry) (j : Nat) (r : Region),
        baidu_to_id regions (baiduKey t.translation) = some j → ¬ j = t.id →
        regions.find? (fun x => x.id = t.id) = some r → ¬ r.dst = "" →
        (swapFix regions t).translation = r.dst) := by
  by_cases hEP : (regions.filter (fun r => r.src ≠ "")).isEmpty = true
  · have hopt : optimize_batch regions out = [] := by
      unfold optimize_batch
      simp only [hEP, if_true]
    have hsrc_nil : srcIds regions = [] := by
      unfold srcIds
      rw [List.isEmpty_iff.mp hEP]
      rfl
    have hparsed_nil : parse_llm_output out regions = [] := by
      cases hp : parse_llm_output out regions with
      | nil => rfl
      | cons t ts =>
        exfalso
        have hm : t.id ∈ parsedIds regions out := by
          unfold parsedIds
          rw [hp]
          simp
        have hm2 := hsub t.id hm
        rw [hsrc_nil] at hm2
        cases hm2
    refine ⟨?_, ?_, ?_, ?_, ?_, ?_⟩
    · rw [hopt, hsrc_nil]
      exact List.Perm.refl _
    · intro r hr hsrc hmiss t ht
      rw [hopt] at ht
      cases ht
    · intro _
      rw [hopt]
      exact List.Pairwise.nil
    · rw [hopt]
      simp
    · intro t ht
      rw [hparsed_nil] at ht
      cases ht
    · intro t j r hb hj hf hd
      exact swapFix_swap regions t j r hb hj hf hd
  · have hE : (regions.filter (fun r => r.src ≠ "")).isEmpty = false := by
      revert hEP
      cases (regions.filter (fun r => r.src ≠ "")).isEmpty <;> simp
    refine ⟨?_, ?_, ?_, ?_, ?_, ?_⟩
    · rw [optimize_batch_ids hnd hE]
      exact parsed_append_missing_perm hnd hsub hpnd
    · intro r hr hsrc hmiss t ht htid
      rw [optimize_batch_eq_of_ne hE] at ht
      obtain ⟨t0, ht0, rfl⟩ := List.mem_map.mp ht
      rw [swapFix_id] at htid
      rcases List.mem_append.mp ht0 with hP | hF
      · have hmem : r.id ∈ parsedIds regions out := by
          unfold parsedIds
          rw [← htid]
          exact List.mem_map.mpr ⟨t0, hP, rfl⟩
        exact absurd hmem hmiss
      · obtain ⟨r2, hr2, hmk⟩ := List.mem_map.mp hF
        have hr2reg : r2 ∈ regions := (List.mem_filter.mp hr2).1
        have hid2 : r2.id = r.id := by
          have hi := congrArg LLMEntry.id hmk
          simp only at hi
          rw [htid] at hi
          exact hi
        have hrr : r2 = r := List.inj_on_of_nodup_map hnd hr2reg hr hid2
        subst hrr
        rw [← hmk]
        exact swapFix_fallback hnd hr2reg
    · intro hcov
      have hmiss_nil : (srcIds regions).filter
          (fun i => ¬ (parsedIds regions out).contains i) = [] := by
        rw [List.filter_eq_nil_iff]
        intro a ha
        simp [hcov a ha]
      have hfb_nil : fallbackEntries regions out = [] := by
        unfold fallbackEntries
        rw [hmiss_nil]
        simp
      rw [optimize_batch_eq_of_ne hE, hfb_nil, List.append_nil]
      exact List.Pairwise.map _ (fun a b hab => by simpa [swapFix_id] using hab)
        (parse_llm_output_pairwise out regions)
    · rw [optimize_batch_eq_of_ne hE, List.map_append]
      rw [List.take_left' (by rw [List.length_map])]
      exact List.Pairwise.map _ (fun a b hab => by simpa [swapFix_id] using hab)
        (parse_llm_output_pairwise out regions)
    · intro t ht
      rw [optimize_batch_eq_of_ne hE]
      exact List.mem_map_of_mem _ (List.mem_append_left _ ht)
    · intro t j r hb hj hf hd
      exact swapFix_swap regions t j r hb hj hf hd

/-- Two OCR regions used by the C9 counterexample. -/
def c9regions : List Region :=
  [{ id := 0, src := "甲", dst := "x" }, { id := 1, src := "乙", dst := "y" }]

/-- C9 counterexample: the model output only answers id 1, so id 0 gets
its Baidu fallback — but the fallback is APPENDED after the parsed
entries, so the resulting list `[id 1, id 0]` is not sorted in
increasing id order as the claim requires (while it does hold one entry
per region). -/
theorem C9_counterexample :
    (optimize_batch c9regions "[1] B").map (fun t => (t.id, t.translation))
      = [(1, "B"), (0, "x")]
    ∧ ¬ (optimize_batch c9regions "[1] B").Pairwise
        (fun a b => a.id ≤ b.id) := by
  refine ⟨by decide, by decide⟩

/-- Regions used by the C9 witness. -/
def c9wregions : List Region :=
  [{ id := 0, src := "一", dst := "A" }, { id := 1, src := "二", dst := "B" }]

/-- Model output used by the C9 witness (ids out of order, to exercise
the sort). -/
def c9wout : String := "[1] Beta\n[0] Alpha"

/-- C9 witness: the amended statement at a concrete two-region batch. -/
theorem C9_optimize_batch_witness :
    ((optimize_batch c9wregions c9wout).map (fun t => t.id)).Perm
        (srcIds c9wregions)
    ∧ (∀ r ∈ c9wregions, ¬ r.src = "" → r.id ∉ parsedIds c9wregions c9wout →
        ∀ t ∈ optimize_batch c9wregions c9wout, t.id = r.id →
          t.translation = r.dst)
    ∧ ((∀ i ∈ srcIds c9wregions, i ∈ parsedIds c9wregions c9wout) →
        (optimize_batch c9wregions c9wout).Pairwise (fun a b => a.id ≤ b.id))
    ∧ ((optimize_batch c9wregions c9wout).take
          (parse_llm_output c9wout c9wregions).length).Pairwise
        (fun a b => a.id ≤ b.id)
    ∧ (∀ t ∈ parse_llm_output c9wout c9wregions,
        swapFix c9wregions t ∈ optimize_batch c9wregions c9wout)
    ∧ (∀ (t : LLMEntry) (j : Nat) (r : Region),
        baidu_to_id c9wregions (baiduKey t.translation) = some j →
        ¬ j = t.id →
        c9wregions.find? (fun x => x.id = t.id) = some r → ¬ r.dst = "" →
        (swapFix c9wregions t).translation = r.dst) :=
  C9_optimize_batch c9wregions c9wout (by decide) (by decide) (by decide)
